import Mathlib

/-!
Verification of the transcriber pipeline core (shallow embedding).

The definitions below are translated from the Python sources:
`app/core/constants.py`, `app/core/chunking_timebased.py`, `app/core/merge.py`,
`app/core/audio_select.py`, `app/core/error_codes.py`, `app/core/job_queue.py`,
`app/core/transcribe_deepgram.py`, `app/core/db_sqlite.py`.
Machine floats are modelled as exact rationals (`ℚ`); all time arithmetic in
the claims uses values that float arithmetic represents exactly.  Disk and
subprocess I/O (ffmpeg invocations, file existence, JSON persistence,
timestamps) is outside the embedding; the state the orchestrator keeps in the
job store is modelled explicitly.
-/

/-! ### Constants (`app/core/constants.py`) -/

def CHUNK_THRESHOLD_SEC : ℚ := 2 * 3600

def BASE_CHUNK_SEC : ℚ := 3600

def CHUNK_OVERLAP_SEC : ℚ := 2

def MIN_CHUNK_SEC : ℚ := 300

def MAX_AUTO_RETRIES : ℕ := 1

def PREFERRED_ABR_KBPS : ℚ := 96

def MIN_ABR_KBPS : ℚ := 64

def MAX_ABR_KBPS : ℚ := 128

def ERR_DOWNLOAD_FAILED : String := "ERR_DOWNLOAD_FAILED"

def ERR_DEEPGRAM_TRANSCRIBE_FAILED : String := "ERR_DEEPGRAM_TRANSCRIBE_FAILED"

def ERR_NETWORK_TRANSIENT : String := "ERR_NETWORK_TRANSIENT"

def ERR_DEEPGRAM_TIMEOUT : String := "ERR_DEEPGRAM_TIMEOUT"

def ERR_UNEXPECTED : String := "ERR_UNEXPECTED"

def RETRYABLE_ERRORS : List String :=
  [ERR_DOWNLOAD_FAILED, ERR_DEEPGRAM_TRANSCRIBE_FAILED,
   ERR_NETWORK_TRANSIENT, ERR_DEEPGRAM_TIMEOUT]

/-! ### Chunk planner (`app/core/chunking_timebased.py`) -/

/-- One manifest entry, a dict `{idx, start_sec, end_sec}` in the source. -/
structure ChunkEntry where
  idx : ℕ
  start_sec : ℚ
  end_sec : ℚ
deriving DecidableEq, Repr

/-- `needs_chunking` from `chunking_timebased.py`. -/
def needs_chunking (duration_sec : ℚ) : Bool :=
  CHUNK_THRESHOLD_SEC < duration_sec

/-- Python's two-argument `min` on rationals, written so that the kernel can
evaluate it on concrete inputs. -/
def pymin (a b : ℚ) : ℚ :=
  if a ≤ b then a else b

theorem pymin_eq_min (a b : ℚ) : pymin a b = min a b := by
  rw [pymin, min_def]

/-- The `while start < duration_sec` loop body of `create_chunk_manifest`,
written with explicit fuel.  Each iteration consumes one unit of fuel; the
bound chosen in `create_chunk_manifest` is proved sufficient whenever
`overlap < chunk` (the only case in which the source loop terminates), so on
that domain the fuel never runs out and the embedding computes the same list
as the source loop. -/
def manifestLoop (d c o : ℚ) : ℕ → ℕ → ℚ → List ChunkEntry
  | 0, _, _ => []
  | fuel + 1, idx, start =>
    if start < d then
      ChunkEntry.mk idx start (pymin (start + c) d) ::
        (if pymin (start + c) d < d then
          manifestLoop d c o fuel (idx + 1) (pymin (start + c) d - o)
        else [])
    else []

/-- Fuel bound for the manifest loop: one more than `⌈d / (c − o)⌉`. -/
def chunkFuel (d c o : ℚ) : ℕ :=
  (⌈d / (c - o)⌉).toNat + 1

/-- `create_chunk_manifest(duration_sec, chunk_duration_sec, overlap_sec)`. -/
def create_chunk_manifest (d c o : ℚ) : List ChunkEntry :=
  manifestLoop d c o (chunkFuel d c o) 0 0

/-- `split_chunk_in_half(start_sec, end_sec)`: two entries, the first ending
at the midpoint, the second starting at `midpoint − CHUNK_OVERLAP_SEC`. -/
def split_chunk_in_half (start_sec end_sec : ℚ) : List (ℚ × ℚ) :=
  [(start_sec, (start_sec + end_sec) / 2),
   ((start_sec + end_sec) / 2 - CHUNK_OVERLAP_SEC, end_sec)]

/-! ### Chunk planner lemmas -/

theorem pymin_lt_right {a b : ℚ} (h : pymin a b < b) : pymin a b = a := by
  by_cases hle : a ≤ b
  · rw [pymin, if_pos hle]
  · rw [pymin, if_neg hle] at h
    exact absurd h (lt_irrefl b)

theorem manifestLoop_end_spec (d c o : ℚ) :
    ∀ fuel idx start, ∀ en ∈ manifestLoop d c o fuel idx start,
      en.end_sec = min (en.start_sec + c) d := by
  intro fuel
  induction fuel with
  | zero => intro idx start en hen; simp [manifestLoop] at hen
  | succ n ih =>
    intro idx start en hen
    rw [manifestLoop] at hen
    by_cases hs : start < d
    · rw [if_pos hs] at hen
      rcases List.mem_cons.mp hen with h | h
      · subst h; simp [pymin_eq_min]
      · by_cases hrec : pymin (start + c) d < d
        · rw [if_pos hrec] at h
          exact ih _ _ en h
        · rw [if_neg hrec] at h; simp at h
    · rw [if_neg hs] at hen; simp at hen

theorem manifestLoop_head_start (d c o : ℚ) (fuel idx : ℕ) (start : ℚ)
    (x : ChunkEntry) (tl : List ChunkEntry)
    (h : manifestLoop d c o fuel idx start = x :: tl) :
    x.idx = idx ∧ x.start_sec = start := by
  cases fuel with
  | zero => simp [manifestLoop] at h
  | succ n =>
    rw [manifestLoop] at h
    by_cases hs : start < d
    · rw [if_pos hs] at h
      injection h with h1 _
      rw [← h1]
      exact ⟨rfl, rfl⟩
    · rw [if_neg hs] at h
      exact absurd h (by simp)

theorem manifestLoop_chain (d c o : ℚ) :
    ∀ fuel idx start, List.Chain' (fun a b => b.start_sec = a.end_sec - o)
      (manifestLoop d c o fuel idx start) := by
  intro fuel
  induction fuel with
  | zero => intro idx start; simp [manifestLoop]
  | succ n ih =>
    intro idx start
    rw [manifestLoop]
    by_cases hs : start < d
    · rw [if_pos hs]
      by_cases hrec : pymin (start + c) d < d
      · rw [if_pos hrec]
        refine List.chain'_cons'.mpr ⟨?_, ih _ _⟩
        intro y hy
        cases hL : manifestLoop d c o n (idx + 1) (pymin (start + c) d - o) with
        | nil => rw [hL] at hy; simp at hy
        | cons x tl =>
          rw [hL] at hy
          simp at hy
          have hx := manifestLoop_head_start d c o n (idx + 1) _ x tl hL
          rw [← hy, hx.2]
      · rw [if_neg hrec]; simp
    · rw [if_neg hs]; simp

theorem manifestLoop_idx_spec (d c o : ℚ) :
    ∀ (fuel idx : ℕ) (start : ℚ) (k : ℕ) (en : ChunkEntry),
      (manifestLoop d c o fuel idx start).get? k = some en →
        en.idx = idx + k := by
  intro fuel
  induction fuel with
  | zero =>
    intro idx start k en hk
    simp [manifestLoop] at hk
  | succ n ih =>
    intro idx start k en hk
    rw [manifestLoop] at hk
    by_cases hs : start < d
    · rw [if_pos hs] at hk
      cases k with
      | zero =>
        simp at hk
        rw [← hk]
        simp
      | succ m =>
        rw [List.get?_cons_succ] at hk
        by_cases hrec : pymin (start + c) d < d
        · rw [if_pos hrec] at hk
          have := ih (idx + 1) (pymin (start + c) d - o) m en hk
          omega
        · rw [if_neg hrec] at hk
          simp at hk
    · rw [if_neg hs] at hk
      simp at hk

theorem manifestLoop_start_lb (d c o : ℚ) (hoc : o < c) :
    ∀ fuel idx start, ∀ en ∈ manifestLoop d c o fuel idx start,
      start ≤ en.start_sec := by
  intro fuel
  induction fuel with
  | zero => intro idx start en hen; simp [manifestLoop] at hen
  | succ n ih =>
    intro idx start en hen
    rw [manifestLoop] at hen
    by_cases hs : start < d
    · rw [if_pos hs] at hen
      rcases List.mem_cons.mp hen with h | h
      · subst h; exact le_refl _
      · by_cases hrec : pymin (start + c) d < d
        · rw [if_pos hrec] at h
          have he := pymin_lt_right hrec
          have : pymin (start + c) d - o ≤ en.start_sec := ih _ _ en h
          rw [he] at this
          linarith
        · rw [if_neg hrec] at h; simp at h
    · rw [if_neg hs] at hen; simp at hen

theorem manifestLoop_cover (d c o : ℚ) (ho : 0 < o) :
    ∀ (fuel : ℕ) (start : ℚ) (idx : ℕ), start < d → d - start ≤ (fuel : ℚ) * (c - o) →
      ∀ t : ℚ, start ≤ t → t ≤ d →
        ∃ en ∈ manifestLoop d c o fuel idx start,
          en.start_sec ≤ t ∧ t ≤ en.end_sec := by
  intro fuel
  induction fuel with
  | zero =>
    intro start idx hs hfuel t ht1 ht2
    exfalso
    push_cast at hfuel
    linarith
  | succ n ih =>
    intro start idx hs hfuel t ht1 ht2
    rw [manifestLoop, if_pos hs]
    by_cases hte : t ≤ pymin (start + c) d
    · exact ⟨ChunkEntry.mk idx start (pymin (start + c) d),
        List.mem_cons_self _ _, ht1, hte⟩
    · push_neg at hte
      have hrec : pymin (start + c) d < d := lt_of_lt_of_le hte ht2
      rw [if_pos hrec]
      have he := pymin_lt_right hrec
      have hs' : pymin (start + c) d - o < d := by linarith
      have hfuel' : d - (pymin (start + c) d - o) ≤ (n : ℚ) * (c - o) := by
        rw [he]
        push_cast at hfuel
        linarith
      have ht1' : pymin (start + c) d - o ≤ t := by linarith
      obtain ⟨en, hmem, h1, h2⟩ := ih _ (idx + 1) hs' hfuel' t ht1' ht2
      exact ⟨en, List.mem_cons_of_mem _ hmem, h1, h2⟩

theorem chunkFuel_spec (d c o : ℚ) (hd : 0 < d) (hoc : o < c) :
    d ≤ (chunkFuel d c o : ℚ) * (c - o) := by
  have hco : (0 : ℚ) < c - o := by linarith
  have h1 : d / (c - o) ≤ (⌈d / (c - o)⌉ : ℚ) := Int.le_ceil _
  have h2 : (0 : ℤ) ≤ ⌈d / (c - o)⌉ :=
    le_of_lt (Int.ceil_pos.mpr (div_pos hd hco))
  rw [chunkFuel]
  have h5 : ((⌈d / (c - o)⌉.toNat : ℕ) : ℚ) = (⌈d / (c - o)⌉ : ℚ) := by
    exact_mod_cast Int.toNat_of_nonneg h2
  have h3 : ((⌈d / (c - o)⌉.toNat + 1 : ℕ) : ℚ) = (⌈d / (c - o)⌉ : ℚ) + 1 := by
    rw [Nat.cast_add, Nat.cast_one, h5]
  rw [h3]
  have h4 : d = d / (c - o) * (c - o) := (div_mul_cancel₀ d (ne_of_gt hco)).symm
  calc d = d / (c - o) * (c - o) := h4
    _ ≤ (⌈d / (c - o)⌉ : ℚ) * (c - o) :=
      mul_le_mul_of_nonneg_right h1 (le_of_lt hco)
    _ ≤ ((⌈d / (c - o)⌉ : ℚ) + 1) * (c - o) := by nlinarith

/-! ### Claim C1: the 10800 s / 3600 s / 2 s scenario -/

/-- C1 (counterexample): the spec scenario predicts exactly 3 manifest
entries for a 10800 s recording with 3600 s chunks and 2 s overlap, but
`create_chunk_manifest` produces 4: each entry spans 3600 s from its own
start, so starts advance by 3598 s, not 3600 s. -/
theorem c1_manifest_not_three_chunks :
    ¬ (create_chunk_manifest 10800 3600 2).length = 3 := by
  have h4 : (⌈(10800 : ℚ) / (3600 - 2)⌉ : ℤ) = 4 := by
    rw [Int.ceil_eq_iff]
    norm_num
  have h : chunkFuel 10800 3600 2 = 5 := by
    rw [chunkFuel, h4]
    rfl
  rw [create_chunk_manifest, h]
  norm_num [manifestLoop, pymin]

/-- C1 (amended): for a 10800 s recording with chunk size 3600 s and overlap
2 s the manifest has exactly 4 entries — (0, 0, 3600), (1, 3598, 7198),
(2, 7196, 10796), (3, 10794, 10800). -/
theorem c1_manifest_scenario_amended :
    create_chunk_manifest 10800 3600 2 =
      [ChunkEntry.mk 0 0 3600, ChunkEntry.mk 1 3598 7198,
       ChunkEntry.mk 2 7196 10796, ChunkEntry.mk 3 10794 10800] := by
  have h4 : (⌈(10800 : ℚ) / (3600 - 2)⌉ : ℤ) = 4 := by
    rw [Int.ceil_eq_iff]
    norm_num
  have h : chunkFuel 10800 3600 2 = 5 := by
    rw [chunkFuel, h4]
    rfl
  rw [create_chunk_manifest, h]
  norm_num [manifestLoop, pymin]

/-! ### Claim C5: general manifest invariants -/

/-- C5: for every positive duration `d`, chunk size `c` and overlap `o` with
`o < c`, the manifest (a) covers `[0, d]` with no gaps, (b) keeps every entry
inside `[0, d]` with `end = min (start + c) d` (each entry spans `c` seconds
clipped to the total duration), (c) has every consecutive pair overlapping by
exactly `o` (`next.start = prev.end − o`, proved for all pairs, which implies
the claim's "except possibly the final pair"), and (d) has 0-based contiguous
indices. -/
theorem c5_manifest_invariants (d c o : ℚ) (hd : 0 < d) (ho : 0 < o) (hoc : o < c) :
    (∀ t : ℚ, 0 ≤ t → t ≤ d →
        ∃ en ∈ create_chunk_manifest d c o, en.start_sec ≤ t ∧ t ≤ en.end_sec)
    ∧ (∀ en ∈ create_chunk_manifest d c o,
        0 ≤ en.start_sec ∧ en.end_sec = min (en.start_sec + c) d ∧ en.end_sec ≤ d)
    ∧ List.Chain' (fun a b => b.start_sec = a.end_sec - o) (create_chunk_manifest d c o)
    ∧ ∀ (k : ℕ) (en : ChunkEntry),
        (create_chunk_manifest d c o).get? k = some en → en.idx = k := by
  refine ⟨?_, ?_, ?_, ?_⟩
  · intro t ht1 ht2
    exact manifestLoop_cover d c o ho (chunkFuel d c o) 0 0 hd
      (by simpa using chunkFuel_spec d c o hd hoc) t ht1 ht2
  · intro en hen
    refine ⟨manifestLoop_start_lb d c o hoc _ _ _ en hen, ?_, ?_⟩
    · exact manifestLoop_end_spec d c o _ _ _ en hen
    · rw [manifestLoop_end_spec d c o _ _ _ en hen]
      exact min_le_right _ _
  · exact manifestLoop_chain d c o _ _ _
  · intro k en hk
    simpa using manifestLoop_idx_spec d c o _ _ _ k en hk

/-- C5 (witness): the invariants instantiated at the concrete scenario
duration 10800 s, chunk 3600 s, overlap 2 s. -/
theorem c5_manifest_invariants_witness :
    (0 : ℚ) < 10800 ∧ (0 : ℚ) < 2 ∧ (2 : ℚ) < 3600 ∧
    ((∀ t : ℚ, 0 ≤ t → t ≤ 10800 →
        ∃ en ∈ create_chunk_manifest 10800 3600 2, en.start_sec ≤ t ∧ t ≤ en.end_sec)
    ∧ (∀ en ∈ create_chunk_manifest 10800 3600 2,
        0 ≤ en.start_sec ∧ en.end_sec = min (en.start_sec + 3600) 10800 ∧ en.end_sec ≤ 10800)
    ∧ List.Chain' (fun a b => b.start_sec = a.end_sec - 2) (create_chunk_manifest 10800 3600 2)
    ∧ ∀ (k : ℕ) (en : ChunkEntry),
        (create_chunk_manifest 10800 3600 2).get? k = some en → en.idx = k) :=
  ⟨by norm_num, by norm_num, by norm_num,
    c5_manifest_invariants 10800 3600 2 (by norm_num) (by norm_num) (by norm_num)⟩

/-! ### Transcript merger (`app/core/merge.py`)

Python `str` values are sequences of characters; the string primitives the
merger uses (`split()`, `rstrip()`, `lstrip()`, `strip()`, `' '.join`) are
implemented below by structural recursion over the underlying character list
so that concrete inputs evaluate inside the kernel. -/

def isWs (ch : Char) : Bool :=
  ch.isWhitespace

/-- Whitespace-run splitting, as Python's argumentless `str.split()`:
runs of whitespace separate words, empty words never occur. -/
def splitWordsAux : List Char → List Char → List (List Char)
  | [], acc => if acc = [] then [] else [acc.reverse]
  | ch :: rest, acc =>
    if isWs ch then
      if acc = [] then splitWordsAux rest []
      else acc.reverse :: splitWordsAux rest []
    else splitWordsAux rest (ch :: acc)

/-- Python `text.split()`. -/
def pysplit (s : String) : List String :=
  (splitWordsAux s.data []).map fun w => String.mk w

def pylstripChars : List Char → List Char
  | [] => []
  | ch :: rest => if isWs ch then pylstripChars rest else ch :: rest

def pyrstripChars (cs : List Char) : List Char :=
  (pylstripChars cs.reverse).reverse

/-- Python `text.lstrip()`. -/
def pylstrip (s : String) : String :=
  String.mk (pylstripChars s.data)

/-- Python `text.rstrip()`. -/
def pyrstrip (s : String) : String :=
  String.mk (pyrstripChars s.data)

/-- Python `text.strip()`. -/
def pystrip (s : String) : String :=
  String.mk (pylstripChars (pyrstripChars s.data))

/-- Python `sep.join(words)`. -/
def pyjoin (sep : String) : List String → String
  | [] => ""
  | [w] => w
  | w :: rest => w ++ sep ++ pyjoin sep rest

/-- The `for i in range(check_len, 0, -1)` scan of `dedupe_overlap`: the
first (largest) `i` such that the last `i` words of `tail_a` equal the first
`i` words of `words_b`, else 0 (`best_overlap` stays 0 when no `i` matches). -/
def bestOverlapLoop (tail_a words_b : List String) : ℕ → ℕ
  | 0 => 0
  | i + 1 =>
    if tail_a.drop (tail_a.length - (i + 1)) = words_b.take (i + 1) then i + 1
    else bestOverlapLoop tail_a words_b i

/-- `dedupe_overlap(text_a, text_b, overlap_words)` from `merge.py`
(the source default for `overlap_words` is 30). -/
def dedupe_overlap (text_a text_b : String) (overlap_words : ℕ) : String :=
  if text_a = "" ∨ text_b = "" then text_a ++ "\n\n" ++ text_b
  else
    let words_a := pysplit text_a
    let words_b := pysplit text_b
    if words_a = [] ∨ words_b = [] then text_a ++ "\n\n" ++ text_b
    else
      let check_len := min overlap_words (min words_a.length words_b.length)
      let tail_a := words_a.drop (words_a.length - check_len)
      let best_overlap := bestOverlapLoop tail_a words_b check_len
      if 3 < best_overlap then
        pyjoin " " words_a ++ " " ++ pyjoin " " (words_b.drop best_overlap)
      else
        pyrstrip text_a ++ "\n\n" ++ pylstrip text_b

/-- `merge_transcripts(texts)` from `merge.py`: fold `dedupe_overlap`
left-to-right (window 30, the source default), then `strip()`; empty list
gives `""`, a single text is returned verbatim. -/
def merge_transcripts (texts : List String) : String :=
  match texts with
  | [] => ""
  | [t] => t
  | t :: rest => pystrip (rest.foldl (fun acc x => dedupe_overlap acc x 30) t)

/-- Number of adjacent occurrences of the word pair `(w1, w2)` in a word
list; "the output contains the subsequence `c d` exactly once" is
`countAdjPair "c" "d" (pysplit output) = 1`. -/
def countAdjPair (w1 w2 : String) : List String → ℕ
  | [] => 0
  | [_] => 0
  | a :: b :: rest => (if a = w1 ∧ b = w2 then 1 else 0) + countAdjPair w1 w2 (b :: rest)

/-! ### Claims C3 and C4: overlap deduplication -/

/-- The declarative counterpart of the scan in `dedupe_overlap`, following
the spec's words for claim C4: take the largest candidate length
`i ≤ min(w, len(wordsA), len(wordsB))` such that the last `i` words of A
equal the first `i` words of B (a descending scan takes the largest match
first); apply the removal only when `i > 3`, and otherwise concatenate with
a paragraph separator, trimming the whitespace at the junction (trailing in
A, leading in B). -/
def dedupeSpecAmended (text_a text_b : String) (overlap_words : ℕ) : String :=
  let words_a := pysplit text_a
  let words_b := pysplit text_b
  let k := min overlap_words (min words_a.length words_b.length)
  let i := Nat.findGreatest (fun i => words_a.drop (words_a.length - i) = words_b.take i) k
  if 3 < i then
    pyjoin " " words_a ++ " " ++ pyjoin " " (words_b.drop i)
  else
    pyrstrip text_a ++ "\n\n" ++ pylstrip text_b

theorem bestOverlap_eq_findGreatest (wa wb : List String) (k : ℕ) (hk : k ≤ wa.length) :
    ∀ j, j ≤ k → bestOverlapLoop (wa.drop (wa.length - k)) wb j
      = Nat.findGreatest (fun i => wa.drop (wa.length - i) = wb.take i) j := by
  intro j
  induction j with
  | zero => intro _; rfl
  | succ m ihm =>
    intro hj
    rw [bestOverlapLoop, Nat.findGreatest_succ]
    have htl : (wa.drop (wa.length - k)).length = k := by
      rw [List.length_drop]
      omega
    have hdd : (wa.drop (wa.length - k)).drop ((wa.drop (wa.length - k)).length - (m + 1))
        = wa.drop (wa.length - (m + 1)) := by
      rw [htl, List.drop_drop]
      congr 1
      omega
    rw [hdd]
    by_cases h : wa.drop (wa.length - (m + 1)) = wb.take (m + 1)
    · rw [if_pos h, if_pos h]
    · rw [if_neg h, if_neg h]
      exact ihm (by omega)

/-- C3 (counterexample): `dedupe_overlap("a b c d", "c d e")` with the
default overlap window 30 (≥ 2) does not remove the duplicated "c d": the
boundary match has length 2, which does not exceed the `> 3` significance
threshold, so the output contains the word pair "c d" twice, not once. -/
theorem c3_dedupe_small_overlap_not_removed :
    ¬ countAdjPair "c" "d" (pysplit (dedupe_overlap "a b c d" "c d e" 30)) = 1 := by
  decide

/-- C3 (amended): for every overlap window of at least 2 words,
`dedupe_overlap("a b c d", "c d e")` finds the 2-word boundary match but,
since 2 does not exceed the significance threshold of 3, concatenates with a
paragraph separator instead of removing it — the output contains the word
pair "c d" exactly twice. -/
theorem c3_dedupe_small_overlap_amended (w : ℕ) (hw : 2 ≤ w) :
    dedupe_overlap "a b c d" "c d e" w = "a b c d\n\nc d e" ∧
    countAdjPair "c" "d" (pysplit (dedupe_overlap "a b c d" "c d e" w)) = 2 := by
  have hmain : dedupe_overlap "a b c d" "c d e" w = "a b c d\n\nc d e" := by
    by_cases h3 : 3 ≤ w
    · have hlen : min (pysplit "a b c d").length (pysplit "c d e").length = 3 := by decide
      have hmin : min w (min (pysplit "a b c d").length (pysplit "c d e").length) = 3 := by
        rw [hlen]
        exact Nat.min_eq_right h3
      simp only [dedupe_overlap]
      rw [hmin]
      decide
    · have hw2 : w = 2 := by omega
      subst hw2
      decide
  exact ⟨hmain, by rw [hmain]; decide⟩

/-- C3 (amended, witness): the amended claim at the concrete window 30. -/
theorem c3_dedupe_small_overlap_amended_witness :
    2 ≤ 30 ∧
    (dedupe_overlap "a b c d" "c d e" 30 = "a b c d\n\nc d e" ∧
     countAdjPair "c" "d" (pysplit (dedupe_overlap "a b c d" "c d e" 30)) = 2) :=
  ⟨by decide, c3_dedupe_small_overlap_amended 30 (by decide)⟩

/-- C4 (counterexample): when no significant overlap is found the source does
not return "A and B concatenated unmodified with a paragraph separator": it
strips the trailing whitespace of A (and leading whitespace of B) at the
junction. With A = "a b c d " (trailing blank) and B = "x y" the claimed
output would be "a b c d \n\nx y", but the code produces "a b c d\n\nx y". -/
theorem c4_dedupe_trims_boundary :
    ¬ dedupe_overlap "a b c d " "x y" 30 = "a b c d " ++ "\n\n" ++ "x y" := by
  decide

/-- C4 (amended): for all texts A, B that each contain at least one word and
every overlap window `w`, `dedupe_overlap` equals the declarative spec
`dedupeSpecAmended`: the largest `i ≤ min(w, len(wordsA), len(wordsB))` with
the last `i` words of A equal to the first `i` words of B is the boundary
match (the descending scan takes the first such `i`); the first `i` words of
B are dropped before concatenation only when `i` exceeds 3 words, and
otherwise A and B are concatenated with a paragraph separator after trimming
the junction whitespace. -/
theorem c4_dedupe_refines_spec (A B : String) (w : ℕ)
    (hA : pysplit A ≠ []) (hB : pysplit B ≠ []) :
    dedupe_overlap A B w = dedupeSpecAmended A B w := by
  have hA' : ¬ (A = "" ∨ B = "") := by
    rintro (h | h)
    · subst h; exact hA rfl
    · subst h; exact hB rfl
  have hw' : ¬ (pysplit A = [] ∨ pysplit B = []) := by
    rintro (h | h)
    exacts [hA h, hB h]
  simp only [dedupe_overlap, dedupeSpecAmended]
  rw [if_neg hA', if_neg hw']
  have hk : min w (min (pysplit A).length (pysplit B).length) ≤ (pysplit A).length :=
    le_trans (Nat.min_le_right _ _) (Nat.min_le_left _ _)
  rw [bestOverlap_eq_findGreatest (pysplit A) (pysplit B) _ hk _ le_rfl]

/-- C4 (amended, witness): the refinement at concrete words with a 4-word
boundary overlap, where the removal branch fires. -/
theorem c4_dedupe_refines_spec_witness :
    pysplit "p q r s t" ≠ [] ∧ pysplit "q r s t u" ≠ [] ∧
    dedupe_overlap "p q r s t" "q r s t u" 30 = dedupeSpecAmended "p q r s t" "q r s t u" 30 :=
  ⟨by decide, by decide, c4_dedupe_refines_spec "p q r s t" "q r s t u" 30 (by decide) (by decide)⟩

/-! ### Job store state and error handling
(`app/core/models_sqlite.py`, `app/core/error_codes.py`,
`app/core/db_sqlite.py`, `app/core/job_queue.py`)

A `Job` carries the mutable row of the `jobs` table (wall-clock timestamp
columns are I/O and omitted); a `JobChunk` is a row of `job_chunks`.  The
store state relevant to one job is its row plus its chunk rows. -/

structure Job where
  id : String
  youtube_url : String
  video_id : Option String
  title : Option String
  status : String
  stage : Option String
  progress_pct : ℤ
  retry_count : ℕ
  error_code : Option String
  error_message : Option String
  retryable : ℕ
  used_creator_captions : ℕ
deriving DecidableEq, Repr

structure JobChunk where
  job_id : String
  idx : ℕ
  start_sec : ℚ
  end_sec : ℚ
  status : String
  attempts : ℕ
  error_code : Option String
  error_message : Option String
deriving DecidableEq, Repr

/-- The view of the job store for one job: its row and its chunk rows. -/
structure JobStoreState where
  job : Job
  chunks : List JobChunk
deriving DecidableEq, Repr

/-- Python slicing `s[:n]`. -/
def pytake (s : String) (n : ℕ) : String :=
  String.mk (s.data.take n)

/-- `is_retryable` from `error_codes.py`. -/
def is_retryable (code : String) : Bool :=
  RETRYABLE_ERRORS.contains code

structure JobErr where
  code : String
  message : String
  retryable : Bool
deriving DecidableEq, Repr

/-- The `JobError.__init__` of `error_codes.py`: the retryable flag defaults
from membership of the code in `RETRYABLE_ERRORS` unless set explicitly. -/
def mkJobError (code message : String) (retryable : Option Bool) : JobErr :=
  JobErr.mk code message (retryable.getD (is_retryable code))

/-- `JobQueueManager._handle_job_error` from `job_queue.py`: auto-retry
(requeue with cleared stage/progress/error and incremented retry count) when
the error is retryable and the retry count is below `MAX_AUTO_RETRIES`,
otherwise mark the job FAILED keeping code and (2000-char-truncated) message.
Only the `jobs` row is written — the chunk rows are untouched. -/
def handle_job_error (st : JobStoreState) (error : JobErr) : JobStoreState :=
  if error.retryable ∧ st.job.retry_count < MAX_AUTO_RETRIES then
    { st with job := { st.job with
        retry_count := st.job.retry_count + 1,
        status := "QUEUED",
        stage := none,
        progress_pct := 0,
        error_code := none,
        error_message := none } }
  else
    { st with job := { st.job with
        status := "FAILED",
        error_code := some error.code,
        error_message := some (pytake error.message 2000),
        retryable := if error.retryable then 1 else 0 } }

/-- Outcome of `_process_job`'s stage work: either a classified `JobError`
or an unclassified (`except Exception`) failure carrying its message. -/
inductive StageFailure where
  | jobError (e : JobErr)
  | unexpected (message : String)
deriving DecidableEq, Repr

/-- The two `except` clauses at the end of `JobQueueManager._process_job`:
a `JobError` goes through `_handle_job_error`; any other exception marks the
job FAILED directly with code `ERR_UNEXPECTED` and retryable flag 1. -/
def process_job_failure (st : JobStoreState) (f : StageFailure) : JobStoreState :=
  match f with
  | StageFailure.jobError e => handle_job_error st e
  | StageFailure.unexpected msg =>
      { st with job := { st.job with
          status := "FAILED",
          error_code := some ERR_UNEXPECTED,
          error_message := some (pytake msg 2000),
          retryable := 1 } }

/-- `JobQueueManager.retry_job` (manual retry): resets a FAILED job to
QUEUED, clears stage/progress/error, and deletes the job's chunk rows
(`db.delete_chunks`). -/
def retry_job (st : JobStoreState) : JobStoreState :=
  if st.job.status = "FAILED" then
    { job := { st.job with
        status := "QUEUED",
        stage := none,
        progress_pct := 0,
        error_code := none,
        error_message := none,
        retryable := 0 },
      chunks := [] }
  else st

/-! ### Claim C2: classified-failure retry policy -/

/-- C2: for every job state and classified error, if the error is retryable
and the retry count is below `MAX_AUTO_RETRIES` (1), the job is reset to
QUEUED with stage `none`, progress 0, error code and message cleared, and
retry count incremented by one; otherwise it is marked FAILED with the error
code and (2000-char-truncated) message retained. -/
theorem c2_handle_job_error_policy (st : JobStoreState) (e : JobErr) :
    (e.retryable = true ∧ st.job.retry_count < MAX_AUTO_RETRIES →
      (handle_job_error st e).job.status = "QUEUED" ∧
      (handle_job_error st e).job.stage = none ∧
      (handle_job_error st e).job.progress_pct = 0 ∧
      (handle_job_error st e).job.error_code = none ∧
      (handle_job_error st e).job.error_message = none ∧
      (handle_job_error st e).job.retry_count = st.job.retry_count + 1)
    ∧ (¬ (e.retryable = true ∧ st.job.retry_count < MAX_AUTO_RETRIES) →
      (handle_job_error st e).job.status = "FAILED" ∧
      (handle_job_error st e).job.error_code = some e.code ∧
      (handle_job_error st e).job.error_message = some (pytake e.message 2000)) := by
  by_cases hc : e.retryable = true ∧ st.job.retry_count < MAX_AUTO_RETRIES
  · constructor
    · intro _
      simp [handle_job_error, hc]
    · intro h
      exact absurd hc h
  · constructor
    · intro h
      exact absurd h hc
    · intro _
      simp [handle_job_error, hc]

def c2ExJob : Job :=
  Job.mk "job-c2" "https://youtu.be/abc" (some "abc") none "RUNNING"
    (some "TRANSCRIBING_DEEPGRAM") 60 0 none none 0 0

def c2ExErr : JobErr :=
  mkJobError ERR_NETWORK_TRANSIENT "transient network failure" none

/-- C2 (witness): a retryable error on a job with retry count 0 requeues it. -/
theorem c2_handle_job_error_policy_witness :
    (c2ExErr.retryable = true ∧ c2ExJob.retry_count < MAX_AUTO_RETRIES) ∧
    ((handle_job_error (JobStoreState.mk c2ExJob []) c2ExErr).job.status = "QUEUED" ∧
     (handle_job_error (JobStoreState.mk c2ExJob []) c2ExErr).job.stage = none ∧
     (handle_job_error (JobStoreState.mk c2ExJob []) c2ExErr).job.progress_pct = 0 ∧
     (handle_job_error (JobStoreState.mk c2ExJob []) c2ExErr).job.error_code = none ∧
     (handle_job_error (JobStoreState.mk c2ExJob []) c2ExErr).job.error_message = none ∧
     (handle_job_error (JobStoreState.mk c2ExJob []) c2ExErr).job.retry_count = c2ExJob.retry_count + 1) :=
  ⟨⟨by decide, by decide⟩,
    (c2_handle_job_error_policy (JobStoreState.mk c2ExJob []) c2ExErr).1 ⟨by decide, by decide⟩⟩

/-! ### Claim C9: unclassified failures -/

def c9ExJob : Job :=
  Job.mk "job-c9" "https://youtu.be/def" (some "def") none "RUNNING"
    (some "FETCHING_METADATA") 10 0 none none 0 0

/-- C9 (counterexample): an unclassified failure on a job with retry count 0
(below the auto-retry maximum) does not requeue the job — `_process_job`'s
generic `except` clause marks it FAILED immediately, contradicting the
claimed retryable-once treatment. -/
theorem c9_unexpected_failure_not_requeued :
    ¬ (process_job_failure (JobStoreState.mk c9ExJob [])
        (StageFailure.unexpected "KeyError: formats")).job.status = "QUEUED" := by
  decide

/-- C9 (amended): every unclassified failure marks the job FAILED at once —
regardless of its retry count — with code `ERR_UNEXPECTED`, the truncated
exception message, and the stored retryable flag set to 1; the job is not
requeued and its retry count is unchanged. -/
theorem c9_unexpected_failure_amended (st : JobStoreState) (msg : String) :
    (process_job_failure st (StageFailure.unexpected msg)).job.status = "FAILED" ∧
    (process_job_failure st (StageFailure.unexpected msg)).job.error_code = some ERR_UNEXPECTED ∧
    (process_job_failure st (StageFailure.unexpected msg)).job.error_message
      = some (pytake msg 2000) ∧
    (process_job_failure st (StageFailure.unexpected msg)).job.retryable = 1 ∧
    (process_job_failure st (StageFailure.unexpected msg)).job.retry_count
      = st.job.retry_count :=
  ⟨rfl, rfl, rfl, rfl, rfl⟩

/-! ### Claim C10: chunk-record lifecycle on retry -/

def c10ExJob : Job :=
  Job.mk "job-c10" "https://youtu.be/ghi" (some "ghi") (some "long video") "RUNNING"
    (some "TRANSCRIBING_DEEPGRAM") 70 0 none none 0 0

def c10ExChunks : List JobChunk :=
  [JobChunk.mk "job-c10" 0 0 3600 "done" 1 none none,
   JobChunk.mk "job-c10" 1 3598 7198 "failed" 1 (some ERR_DEEPGRAM_TIMEOUT) none]

def c10ExErr : JobErr :=
  mkJobError ERR_DEEPGRAM_TIMEOUT "Timeout on minimum chunk size (300s)" none

def c10ExFailedJob : Job :=
  Job.mk "job-c10" "https://youtu.be/ghi" (some "ghi") (some "long video") "FAILED"
    (some "TRANSCRIBING_DEEPGRAM") 70 1 (some ERR_DEEPGRAM_TIMEOUT) none 1 0

/-- C10 (code bug): the automatic retry path (`_handle_job_error`) requeues
the job but leaves its persisted chunk rows in place — only the manual
`retry_job` (and `delete_job`) call `delete_chunks`.  Evaluated at a chunked
job whose transcription failed with a retryable error: the job re-enters
QUEUED while both chunk rows survive, so the claimed "deleted whenever the
job is retried" fails on the automatic path (and re-processing would then
collide with the `(job_id, idx)` primary key when chunks are re-created). -/
theorem c10_auto_retry_keeps_chunks :
    (handle_job_error (JobStoreState.mk c10ExJob c10ExChunks) c10ExErr).job.status = "QUEUED" ∧
    (handle_job_error (JobStoreState.mk c10ExJob c10ExChunks) c10ExErr).chunks = c10ExChunks ∧
    ¬ c10ExChunks = [] ∧
    (retry_job (JobStoreState.mk c10ExFailedJob c10ExChunks)).chunks = [] := by
  refine ⟨by decide, rfl, by decide, by decide⟩

/-! ### Audio stream selector (`app/core/audio_select.py`) -/

/-- Python `abs`, kernel-evaluable on rationals. -/
def pyabs (a : ℚ) : ℚ :=
  if a < 0 then -a else a

theorem pyabs_eq_abs (a : ℚ) : pyabs a = |a| := by
  by_cases h : a < 0
  · rw [pyabs, if_pos h, abs_of_neg h]
  · rw [pyabs, if_neg h, abs_of_nonneg (not_lt.mp h)]

/-- A stream descriptor from the metadata `formats` list: the fields
`select_audio_stream` reads (`vcodec`, `acodec`, `abr`, `format_id`, `ext`).
A missing field is `none`; an `abr` that is absent or fails `float()`
parsing is `none` (the numeric parsing itself is at the I/O boundary). -/
structure MediaFormat where
  vcodec : Option String
  acodec : Option String
  abr : Option ℚ
  format_id : String
  ext : String
deriving DecidableEq, Repr

/-- Python's `x in ('none', None, '')` test on a codec field. -/
def isNoneLike : Option String → Bool
  | none => true
  | some s => s == "none" || s == ""

/-- The audio-only filter: no video codec, non-empty audio codec. -/
def audioOnly (f : MediaFormat) : Bool :=
  isNoneLike f.vcodec && !(isNoneLike f.acodec)

/-- The dict built for each qualifying stream (`filesize` and `format_note`
are carried along in the source but never read by the selection logic). -/
structure AudioStreamInfo where
  format_id : String
  abr : Option ℚ
  ext : String
  acodec : Option String
deriving DecidableEq, Repr

def projectStream (f : MediaFormat) : AudioStreamInfo :=
  AudioStreamInfo.mk f.format_id f.abr f.ext f.acodec

/-- The result dict of `select_audio_stream`. -/
structure SelectedStream where
  format_id : String
  abr : Option ℚ
  ext : Option String
  acodec : Option String
  selection_reason : String
deriving DecidableEq, Repr

/-- `s['abr']` read as a number on the branches where it is known valid. -/
def abrVal (s : AudioStreamInfo) : ℚ :=
  s.abr.getD 0

/-- `s['abr'] is not None and s['abr'] > 0`. -/
def hasPosAbr (s : AudioStreamInfo) : Bool :=
  match s.abr with
  | some a => decide (0 < a)
  | none => false

/-- Strict lexicographic comparison of Python 2-tuples of numbers, the order
`list.sort(key=...)` uses. -/
def lexLt (p q : ℚ × ℚ) : Prop :=
  p.1 < q.1 ∨ (p.1 = q.1 ∧ p.2 < q.2)

instance (p q : ℚ × ℚ) : Decidable (lexLt p q) :=
  inferInstanceAs (Decidable (p.1 < q.1 ∨ (p.1 = q.1 ∧ p.2 < q.2)))

theorem lexLt_iff (p q : ℚ × ℚ) : lexLt p q ↔ toLex p < toLex q :=
  (Prod.Lex.lt_iff p q).symm

/-- First element of the list `hd :: tl` stably sorted by `key`: the earliest
element whose key is lexicographically minimal (Python's `sort` is stable, so
`sorted[0]` keeps the earliest element among key ties — replacement below
requires a strictly smaller key). -/
def pickMinBy {α : Type} (key : α → ℚ × ℚ) (hd : α) (tl : List α) : α :=
  tl.foldl (fun cur nxt => if lexLt (key nxt) (key cur) then nxt else cur) hd

theorem pickMinBy_cons {α : Type} (key : α → ℚ × ℚ) (hd y : α) (ys : List α) :
    pickMinBy key hd (y :: ys)
      = pickMinBy key (if lexLt (key y) (key hd) then y else hd) ys :=
  rfl

theorem pickMinBy_mem {α : Type} (key : α → ℚ × ℚ) :
    ∀ (tl : List α) (hd : α), pickMinBy key hd tl ∈ hd :: tl := by
  intro tl
  induction tl with
  | nil => intro hd; exact List.mem_cons_self _ _
  | cons y ys ih =>
    intro hd
    rw [pickMinBy_cons]
    by_cases h : lexLt (key y) (key hd)
    · rw [if_pos h]
      rcases List.mem_cons.mp (ih y) with h1 | h1
      · rw [h1]
        exact List.mem_cons_of_mem _ (List.mem_cons_self _ _)
      · exact List.mem_cons_of_mem _ (List.mem_cons_of_mem _ h1)
    · rw [if_neg h]
      rcases List.mem_cons.mp (ih hd) with h1 | h1
      · rw [h1]
        exact List.mem_cons_self _ _
      · exact List.mem_cons_of_mem _ (List.mem_cons_of_mem _ h1)

theorem pickMinBy_le {α : Type} (key : α → ℚ × ℚ) :
    ∀ (tl : List α) (hd : α), ∀ x ∈ hd :: tl,
      toLex (key (pickMinBy key hd tl)) ≤ toLex (key x) := by
  intro tl
  induction tl with
  | nil =>
    intro hd x hx
    rcases List.mem_cons.mp hx with h | h
    · rw [h]
      exact le_refl _
    · simp at h
  | cons y ys ih =>
    intro hd x hx
    rw [pickMinBy_cons]
    by_cases h : lexLt (key y) (key hd)
    · rw [if_pos h]
      have hpk : toLex (key (pickMinBy key y ys)) ≤ toLex (key y) :=
        ih y y (List.mem_cons_self _ _)
      rcases List.mem_cons.mp hx with h1 | h1
      · rw [h1]
        exact le_trans hpk (le_of_lt ((lexLt_iff _ _).mp h))
      · rcases List.mem_cons.mp h1 with h2 | h2
        · rw [h2]
          exact hpk
        · exact ih y x (List.mem_cons_of_mem _ h2)
    · rw [if_neg h]
      have hyh : toLex (key hd) ≤ toLex (key y) := by
        have hnot := (not_iff_not.mpr (lexLt_iff (key y) (key hd))).mp h
        exact not_lt.mp hnot
      have hpk : toLex (key (pickMinBy key hd ys)) ≤ toLex (key hd) :=
        ih hd hd (List.mem_cons_self _ _)
      rcases List.mem_cons.mp hx with h1 | h1
      · rw [h1]
        exact hpk
      · rcases List.mem_cons.mp h1 with h2 | h2
        · rw [h2]
          exact le_trans hpk hyh
        · exact ih hd x (List.mem_cons_of_mem _ h2)

/-- The result dict `{format_id, abr, ext, acodec, selection_reason}` built
from the selected stream. -/
def mkResult (s : AudioStreamInfo) (reason : String) : SelectedStream :=
  SelectedStream.mk s.format_id s.abr (some s.ext) s.acodec reason

/-- Sort key of the in-band selection:
`(abs(abr − 96), −abr)` — closest to the 96 kbps target first, ties broken
towards the higher bitrate. -/
def selKey (s : AudioStreamInfo) : ℚ × ℚ :=
  (pyabs (abrVal s - PREFERRED_ABR_KBPS), -(abrVal s))

/-- The `if in_range:` branch pair of `select_audio_stream`, dispatching on
`in_range = [s for s in above_floor if s.abr <= 128]` (the first two
arguments are `above_floor`). -/
def selectInRange (a0 : AudioStreamInfo) (arest : List AudioStreamInfo) :
    List AudioStreamInfo → SelectedStream
  | [] => mkResult (pickMinBy (fun s => (abrVal s, 0)) a0 arest)
      "No stream in [64-128] range; chose lowest above floor"
  | r0 :: rrest => mkResult (pickMinBy selKey r0 rrest)
      "Closest to 96kbps in [64-128] range"

/-- The `if above_floor:` branch pair, dispatching on
`above_floor = [s for s in with_abr if s.abr >= 64]` (the first two
arguments are `with_abr`). -/
def selectAboveFloor (w0 : AudioStreamInfo) (wrest : List AudioStreamInfo) :
    List AudioStreamInfo → SelectedStream
  | [] => mkResult (pickMinBy (fun s => (-(abrVal s), 0)) w0 wrest)
      "No stream >= 64kbps; chose highest available"
  | a0 :: arest => selectInRange a0 arest
      ((a0 :: arest).filter fun s => decide (abrVal s ≤ MAX_ABR_KBPS))

/-- The `if with_abr:` branch pair, dispatching on the sublist of
`audio_streams` with usable positive bitrate (the first two arguments are
`audio_streams`). -/
def selectWithAbr (s0 : AudioStreamInfo) (_srest : List AudioStreamInfo) :
    List AudioStreamInfo → SelectedStream
  | [] => mkResult s0 "No reliable ABR data; chose first audio-only stream"
  | w0 :: wrest => selectAboveFloor w0 wrest
      ((w0 :: wrest).filter fun s => decide (MIN_ABR_KBPS ≤ abrVal s))

/-- The `if not audio_streams:` dispatch on the audio-only stream list. -/
def selectFromAudio : List AudioStreamInfo → SelectedStream
  | [] => SelectedStream.mk "bestaudio" none none none
      "No audio-only streams found; using bestaudio fallback"
  | s0 :: srest => selectWithAbr s0 srest ((s0 :: srest).filter hasPosAbr)

/-- `select_audio_stream` from `audio_select.py`: filter to audio-only
streams, then pick by bitrate policy (floor 64, band 64–128, target 96, ties
to the higher bitrate), with the fallbacks and diagnostic reason strings of
the source.  `pickMinBy` plays the role of `sort(key=...)` followed by
`[0]`; the two scalar-key sorts of the source use a constant second key
component here.  The branch chain is split into one definition per `if` of
the source. -/
def select_audio_stream (formats : List MediaFormat) : SelectedStream :=
  selectFromAudio ((formats.filter audioOnly).map projectStream)

/-! ### Claim C6: audio stream selection -/

/-- Helper for C6: whenever every audio-only stream has a bitrate meeting
the 64 kbps floor and at least one lies in the 64–128 band, the selector
returns a band stream whose bitrate minimises the distance to 96 kbps with
ties resolved towards the higher bitrate. -/
theorem select_audio_band_pick (formats : List MediaFormat)
    (hAudio : ∀ f ∈ formats, audioOnly f = true)
    (hFloor : ∀ f ∈ formats, ∃ a : ℚ, f.abr = some a ∧ MIN_ABR_KBPS ≤ a)
    (hBand : ∃ f ∈ formats, ∃ a : ℚ, f.abr = some a ∧ a ≤ MAX_ABR_KBPS) :
    ∃ a : ℚ, (select_audio_stream formats).abr = some a
      ∧ MIN_ABR_KBPS ≤ a ∧ a ≤ MAX_ABR_KBPS
      ∧ (∃ f ∈ formats, f.abr = some a
          ∧ (select_audio_stream formats).format_id = f.format_id)
      ∧ (select_audio_stream formats).selection_reason
          = "Closest to 96kbps in [64-128] range"
      ∧ ∀ f ∈ formats, ∀ b : ℚ, f.abr = some b → b ≤ MAX_ABR_KBPS →
          (|a - PREFERRED_ABR_KBPS| < |b - PREFERRED_ABR_KBPS|
            ∨ (|a - PREFERRED_ABR_KBPS| = |b - PREFERRED_ABR_KBPS| ∧ b ≤ a)) := by
  obtain ⟨f0, hf0, a0, ha0, hb0⟩ := hBand
  have hAS : (formats.filter audioOnly).map projectStream = formats.map projectStream := by
    rw [List.filter_eq_self.mpr hAudio]
  have hstream : ∀ x ∈ formats.map projectStream,
      ∃ f ∈ formats, projectStream f = x ∧
        ∃ a : ℚ, x.abr = some a ∧ MIN_ABR_KBPS ≤ a := by
    intro x hx
    obtain ⟨f, hf, hfx⟩ := List.mem_map.mp hx
    obtain ⟨a, ha, hfl⟩ := hFloor f hf
    exact ⟨f, hf, hfx, a, by rw [← hfx]; exact ha, hfl⟩
  cases hAS2 : formats.map projectStream with
  | nil =>
    exfalso
    have hmem : f0 ∈ ([] : List MediaFormat) := by
      rw [← List.map_eq_nil_iff.mp hAS2]
      exact hf0
    simp at hmem
  | cons s0 srest =>
    have hmemAS : ∀ x ∈ s0 :: srest,
        ∃ f ∈ formats, projectStream f = x ∧
          ∃ a : ℚ, x.abr = some a ∧ MIN_ABR_KBPS ≤ a := by
      intro x hx
      exact hstream x (by rw [hAS2]; exact hx)
    have hW : (s0 :: srest).filter hasPosAbr = s0 :: srest := by
      apply List.filter_eq_self.mpr
      intro x hx
      obtain ⟨f, hf, hfx, a, ha, hfl⟩ := hmemAS x hx
      rw [hasPosAbr, ha]
      simp only [decide_eq_true_eq]
      have hpos : (0 : ℚ) < MIN_ABR_KBPS := by rw [MIN_ABR_KBPS]; norm_num
      linarith
    have hF : (s0 :: srest).filter (fun s => decide (MIN_ABR_KBPS ≤ abrVal s)) = s0 :: srest := by
      apply List.filter_eq_self.mpr
      intro x hx
      obtain ⟨f, hf, hfx, a, ha, hfl⟩ := hmemAS x hx
      simp only [decide_eq_true_eq, abrVal, ha, Option.getD_some]
      exact hfl
    have hproj0 : projectStream f0 ∈ s0 :: srest := by
      rw [← hAS2]
      exact List.mem_map_of_mem projectStream hf0
    have habr0 : abrVal (projectStream f0) = a0 := by
      rw [abrVal, projectStream, ha0]
      rfl
    have hmem0 : projectStream f0 ∈
        (s0 :: srest).filter (fun s => decide (abrVal s ≤ MAX_ABR_KBPS)) := by
      apply List.mem_filter.mpr
      refine ⟨hproj0, ?_⟩
      simp only [decide_eq_true_eq, habr0]
      exact hb0
    cases hIR : (s0 :: srest).filter (fun s => decide (abrVal s ≤ MAX_ABR_KBPS)) with
    | nil =>
      rw [hIR] at hmem0
      simp at hmem0
    | cons r0 rrest =>
      have hsel : select_audio_stream formats = mkResult (pickMinBy selKey r0 rrest)
          "Closest to 96kbps in [64-128] range" := by
        rw [select_audio_stream, hAS, hAS2, selectFromAudio, hW, selectWithAbr, hF,
          selectAboveFloor, hIR, selectInRange]
      have hbestmem : pickMinBy selKey r0 rrest ∈ s0 :: srest ∧
          decide (abrVal (pickMinBy selKey r0 rrest) ≤ MAX_ABR_KBPS) = true := by
        have hm := pickMinBy_mem selKey rrest r0
        rw [← hIR] at hm
        exact List.mem_filter.mp hm
      obtain ⟨fb, hfb, hfbx, ab, hab, habfl⟩ := hmemAS _ hbestmem.1
      have habv : abrVal (pickMinBy selKey r0 rrest) = ab := by
        rw [abrVal, hab]
        rfl
      have habr_le : ab ≤ MAX_ABR_KBPS := by
        have hd := hbestmem.2
        simp only [decide_eq_true_eq, habv] at hd
        exact hd
      refine ⟨ab, ?_, habfl, habr_le, ⟨fb, hfb, ?_, ?_⟩, ?_, ?_⟩
      · rw [hsel, mkResult, hab]
      · rw [← hfbx] at hab
        exact hab
      · rw [hsel, mkResult, ← hfbx]
        rfl
      · rw [hsel, mkResult]
      · intro f hf b hb hble
        have hprojf : projectStream f ∈ r0 :: rrest := by
          rw [← hIR]
          apply List.mem_filter.mpr
          constructor
          · rw [← hAS2]
            exact List.mem_map_of_mem projectStream hf
          · simp only [decide_eq_true_eq, abrVal, projectStream, hb, Option.getD_some]
            exact hble
        have hle := pickMinBy_le selKey rrest r0 (projectStream f) hprojf
        rw [Prod.Lex.le_iff] at hle
        have hkey1 : (selKey (pickMinBy selKey r0 rrest)).1 = pyabs (ab - PREFERRED_ABR_KBPS) := by
          rw [selKey, habv]
        have hkey2 : (selKey (pickMinBy selKey r0 rrest)).2 = -ab := by
          rw [selKey, habv]
        have hkeyf1 : (selKey (projectStream f)).1 = pyabs (b - PREFERRED_ABR_KBPS) := by
          rw [selKey, abrVal, projectStream, hb]
          rfl
        have hkeyf2 : (selKey (projectStream f)).2 = -b := by
          rw [selKey, abrVal, projectStream, hb]
          rfl
        rw [hkey1, hkey2, hkeyf1, hkeyf2, pyabs_eq_abs, pyabs_eq_abs] at hle
        rcases hle with h | ⟨h1, h2⟩
        · exact Or.inl h
        · exact Or.inr ⟨h1, by linarith⟩

def c6FmtsBand : List MediaFormat :=
  [MediaFormat.mk (some "none") (some "opus") (some 64) "f64" "webm",
   MediaFormat.mk (some "none") (some "opus") (some 96) "f96" "webm",
   MediaFormat.mk (some "none") (some "opus") (some 128) "f128" "webm"]

def c6FmtsTie : List MediaFormat :=
  [MediaFormat.mk (some "none") (some "opus") (some 64) "f64" "webm",
   MediaFormat.mk (some "none") (some "opus") (some 128) "f128" "webm"]

def c6FmtsLow : List MediaFormat :=
  [MediaFormat.mk (some "none") (some "opus") (some 32) "f32" "webm",
   MediaFormat.mk (some "none") (some "opus") (some 64) "f64" "webm"]

def sB64 : AudioStreamInfo := AudioStreamInfo.mk "f64" (some 64) "webm" (some "opus")

def sB96 : AudioStreamInfo := AudioStreamInfo.mk "f96" (some 96) "webm" (some "opus")

def sB128 : AudioStreamInfo := AudioStreamInfo.mk "f128" (some 128) "webm" (some "opus")

/-- C6: among audio-only streams whose bitrates all meet the 64 kbps floor
with at least one in the 64–128 band, the selector picks the band stream
closest to 96 kbps, ties to the higher bitrate; in particular bitrates
{64, 96, 128} select 96, {64, 128} select 128, {32, 64} select 64, and an
empty stream list yields the generic `bestaudio` fallback marker. -/
theorem c6_audio_selection_policy :
    (∀ formats : List MediaFormat,
      (∀ f ∈ formats, audioOnly f = true) →
      (∀ f ∈ formats, ∃ a : ℚ, f.abr = some a ∧ MIN_ABR_KBPS ≤ a) →
      (∃ f ∈ formats, ∃ a : ℚ, f.abr = some a ∧ a ≤ MAX_ABR_KBPS) →
      ∃ a : ℚ, (select_audio_stream formats).abr = some a
        ∧ MIN_ABR_KBPS ≤ a ∧ a ≤ MAX_ABR_KBPS
        ∧ (∃ f ∈ formats, f.abr = some a
            ∧ (select_audio_stream formats).format_id = f.format_id)
        ∧ (select_audio_stream formats).selection_reason
            = "Closest to 96kbps in [64-128] range"
        ∧ ∀ f ∈ formats, ∀ b : ℚ, f.abr = some b → b ≤ MAX_ABR_KBPS →
            (|a - PREFERRED_ABR_KBPS| < |b - PREFERRED_ABR_KBPS|
              ∨ (|a - PREFERRED_ABR_KBPS| = |b - PREFERRED_ABR_KBPS| ∧ b ≤ a)))
    ∧ (select_audio_stream c6FmtsBand).abr = some 96
    ∧ (select_audio_stream c6FmtsTie).abr = some 128
    ∧ (select_audio_stream c6FmtsLow).abr = some 64
    ∧ (select_audio_stream []).format_id = "bestaudio"
    ∧ (select_audio_stream []).selection_reason
        = "No audio-only streams found; using bestaudio fallback" := by
  refine ⟨select_audio_band_pick, ?_, ?_, by rfl, by rfl, by rfl⟩
  · rw [select_audio_stream]
    have e1 : (c6FmtsBand.filter audioOnly).map projectStream = [sB64, sB96, sB128] := rfl
    rw [e1, selectFromAudio]
    have e2 : [sB64, sB96, sB128].filter hasPosAbr = [sB64, sB96, sB128] := rfl
    rw [e2, selectWithAbr]
    have e3 : [sB64, sB96, sB128].filter (fun s => decide (MIN_ABR_KBPS ≤ abrVal s))
        = [sB64, sB96, sB128] := rfl
    rw [e3, selectAboveFloor]
    have e4 : [sB64, sB96, sB128].filter (fun s => decide (abrVal s ≤ MAX_ABR_KBPS))
        = [sB64, sB96, sB128] := rfl
    rw [e4, selectInRange]
    have hpick : pickMinBy selKey sB64 [sB96, sB128] = sB96 := by
      rw [pickMinBy_cons]
      have hlt1 : lexLt (selKey sB96) (selKey sB64) := by
        left
        norm_num [selKey, abrVal, pyabs, PREFERRED_ABR_KBPS, sB96, sB64]
      rw [if_pos hlt1, pickMinBy_cons]
      have hlt2 : ¬ lexLt (selKey sB128) (selKey sB96) := by
        norm_num [lexLt, selKey, abrVal, pyabs, PREFERRED_ABR_KBPS, sB128, sB96]
      rw [if_neg hlt2]
      rfl
    rw [hpick]
    rfl
  · rw [select_audio_stream]
    have e1 : (c6FmtsTie.filter audioOnly).map projectStream = [sB64, sB128] := rfl
    rw [e1, selectFromAudio]
    have e2 : [sB64, sB128].filter hasPosAbr = [sB64, sB128] := rfl
    rw [e2, selectWithAbr]
    have e3 : [sB64, sB128].filter (fun s => decide (MIN_ABR_KBPS ≤ abrVal s))
        = [sB64, sB128] := rfl
    rw [e3, selectAboveFloor]
    have e4 : [sB64, sB128].filter (fun s => decide (abrVal s ≤ MAX_ABR_KBPS))
        = [sB64, sB128] := rfl
    rw [e4, selectInRange]
    have hpick : pickMinBy selKey sB64 [sB128] = sB128 := by
      rw [pickMinBy_cons]
      have hlt1 : lexLt (selKey sB128) (selKey sB64) := by
        right
        constructor
        · norm_num [selKey, abrVal, pyabs, PREFERRED_ABR_KBPS, sB128, sB64]
        · norm_num [selKey, abrVal, sB128, sB64]
      rw [if_pos hlt1]
      rfl
    rw [hpick]
    rfl

/-- C6 (witness): the general band-selection clause applied at the concrete
{64, 96, 128} stream list, hypotheses discharged there. -/
theorem c6_audio_selection_policy_witness :
    (∀ f ∈ c6FmtsBand, audioOnly f = true) ∧
    (∀ f ∈ c6FmtsBand, ∃ a : ℚ, f.abr = some a ∧ MIN_ABR_KBPS ≤ a) ∧
    (∃ f ∈ c6FmtsBand, ∃ a : ℚ, f.abr = some a ∧ a ≤ MAX_ABR_KBPS) ∧
    (∃ a : ℚ, (select_audio_stream c6FmtsBand).abr = some a
      ∧ MIN_ABR_KBPS ≤ a ∧ a ≤ MAX_ABR_KBPS
      ∧ (∃ f ∈ c6FmtsBand, f.abr = some a
          ∧ (select_audio_stream c6FmtsBand).format_id = f.format_id)
      ∧ (select_audio_stream c6FmtsBand).selection_reason
          = "Closest to 96kbps in [64-128] range"
      ∧ ∀ f ∈ c6FmtsBand, ∀ b : ℚ, f.abr = some b → b ≤ MAX_ABR_KBPS →
          (|a - PREFERRED_ABR_KBPS| < |b - PREFERRED_ABR_KBPS|
            ∨ (|a - PREFERRED_ABR_KBPS| = |b - PREFERRED_ABR_KBPS| ∧ b ≤ a))) := by
  have hAudio : ∀ f ∈ c6FmtsBand, audioOnly f = true := by decide
  have hFloor : ∀ f ∈ c6FmtsBand, ∃ a : ℚ, f.abr = some a ∧ MIN_ABR_KBPS ≤ a := by
    intro f hf
    simp only [c6FmtsBand, List.mem_cons, List.not_mem_nil, or_false] at hf
    rcases hf with h | h | h
    · exact ⟨64, by rw [h], by rw [MIN_ABR_KBPS]⟩
    · exact ⟨96, by rw [h], by rw [MIN_ABR_KBPS]; norm_num⟩
    · exact ⟨128, by rw [h], by rw [MIN_ABR_KBPS]; norm_num⟩
  have hBand : ∃ f ∈ c6FmtsBand, ∃ a : ℚ, f.abr = some a ∧ a ≤ MAX_ABR_KBPS := by
    refine ⟨MediaFormat.mk (some "none") (some "opus") (some 96) "f96" "webm", ?_, 96, rfl, ?_⟩
    · simp [c6FmtsBand]
    · rw [MAX_ABR_KBPS]; norm_num
  exact ⟨hAudio, hFloor, hBand,
    c6_audio_selection_policy.1 c6FmtsBand hAudio hFloor hBand⟩

/-! ### Transcription call and adaptive controller
(`app/core/transcribe_deepgram.py`, `JobQueueManager._transcribe_with_adaptive_retry`)

A structured transcription response is modelled by the two fields
`extract_transcript_text` reads: the paragraph tree (each paragraph as its
list of sentence texts) and the flat transcript.  The network call itself is
an oracle parameter; persistence of raw responses and the ffmpeg extraction
of half-segment audio artifacts are disk I/O and outside the embedding. -/

structure DGResponse where
  paragraphs : List (List String)
  transcript : String
deriving DecidableEq, Repr

/-- `extract_transcript_text` from `transcribe_deepgram.py`: prefer the
paragraph structure (sentences joined by spaces, stripped, empty paragraphs
dropped, paragraphs joined by blank lines, used only when non-empty),
otherwise the stripped flat transcript, otherwise the empty string. -/
def extract_transcript_text (r : DGResponse) : String :=
  let parts := (r.paragraphs.map fun para => pystrip (pyjoin " " para)).filter
    fun t => t ≠ ""
  if r.paragraphs ≠ [] ∧ parts ≠ [] then
    pyjoin "\n\n" parts
  else if r.transcript ≠ "" then
    pystrip r.transcript
  else ""

def MAX_RATE_LIMIT_RETRIES : ℕ := 4

def RATE_LIMIT_BASE_DELAY : ℚ := 2

/-- One attempt's outcome at the HTTP boundary of `transcribe_audio`:
a `requests` exception, or a response with status, raw text, JSON
parsability, and (when parsable) the parsed body. -/
inductive DGAttempt where
  | excTimeout
  | excConnection
  | excOther (msg : String)
  | http (status : ℕ) (rawText : String) (parseOk : Bool) (body : DGResponse)
deriving DecidableEq, Repr

/-- The backoff delay slept before retry `attempt + 1`:
`2.0 * 2 ** attempt`, scaled by `1 + uniform(-0.1, 0.1)`; the random draw is
the `jitter` parameter. -/
def rateLimitDelay (jitter : ℕ → ℚ) (attempt : ℕ) : ℚ :=
  RATE_LIMIT_BASE_DELAY * 2 ^ attempt * (1 + jitter attempt)

/-- The `for attempt in range(_MAX_RATE_LIMIT_RETRIES + 1)` loop of
`transcribe_audio`, with the trailing "exhausted retries" error after the
loop.  Returns the list of delays slept (in order) with the outcome. -/
def dgAttemptLoop (resp : ℕ → DGAttempt) (jitter : ℕ → ℚ) :
    ℕ → ℕ → List ℚ → List ℚ × Except JobErr DGResponse
  | 0, _, delays =>
    (delays.reverse, Except.error (mkJobError ERR_NETWORK_TRANSIENT
      "Deepgram request exhausted retries" (some true)))
  | rem + 1, attempt, delays =>
    match resp attempt with
    | DGAttempt.excTimeout =>
      (delays.reverse, Except.error (mkJobError ERR_DEEPGRAM_TIMEOUT
        "Deepgram request timed out" (some true)))
    | DGAttempt.excConnection =>
      (delays.reverse, Except.error (mkJobError ERR_NETWORK_TRANSIENT
        "Network error connecting to Deepgram" (some true)))
    | DGAttempt.excOther msg =>
      (delays.reverse, Except.error (mkJobError ERR_DEEPGRAM_TRANSCRIBE_FAILED
        ("Deepgram request failed: " ++ msg) (some true)))
    | DGAttempt.http st raw ok body =>
      if st = 504 then
        (delays.reverse, Except.error (mkJobError ERR_DEEPGRAM_TIMEOUT
          "Deepgram returned 504 Gateway Timeout" (some true)))
      else if st = 429 then
        if attempt < MAX_RATE_LIMIT_RETRIES then
          dgAttemptLoop resp jitter rem (attempt + 1)
            (rateLimitDelay jitter attempt :: delays)
        else
          (delays.reverse, Except.error (mkJobError ERR_NETWORK_TRANSIENT
            "Deepgram rate limited (429) after 4 retries" (some true)))
      else if st ≠ 200 then
        (delays.reverse, Except.error (mkJobError ERR_DEEPGRAM_TRANSCRIBE_FAILED
          ("Deepgram returned " ++ toString st ++ ": "
            ++ (if raw = "" then "No response body" else pytake raw 300)) none))
      else if ok = false then
        (delays.reverse, Except.error (mkJobError ERR_DEEPGRAM_TRANSCRIBE_FAILED
          "Failed to parse Deepgram response JSON" none))
      else
        (delays.reverse, Except.ok body)

/-- `transcribe_audio` from `transcribe_deepgram.py`, over the per-attempt
HTTP outcome oracle `resp` and the jitter draws. -/
def transcribe_audio (resp : ℕ → DGAttempt) (jitter : ℕ → ℚ) :
    List ℚ × Except JobErr DGResponse :=
  dgAttemptLoop resp jitter (MAX_RATE_LIMIT_RETRIES + 1) 0 []

/-! ### Claim C8: rate-limit backoff -/

/-- C8: when every attempt of a transcription call is answered with a 429
rate-limit response, the call is retried 4 times, sleeping
`2·2^k·(1 + jitter k)` seconds before retry `k + 1`, and then fails with a
retryable network error; under the `uniform(-0.1, 0.1)` jitter bound each
delay lies within ±10% of the base-2 doubling schedule 2s, 4s, 8s, 16s. -/
theorem c8_rate_limit_backoff (resp : ℕ → DGAttempt) (jitter : ℕ → ℚ)
    (h429 : ∀ i, i < MAX_RATE_LIMIT_RETRIES + 1 →
      ∃ raw ok body, resp i = DGAttempt.http 429 raw ok body) :
    transcribe_audio resp jitter
      = ([RATE_LIMIT_BASE_DELAY * 2 ^ 0 * (1 + jitter 0),
          RATE_LIMIT_BASE_DELAY * 2 ^ 1 * (1 + jitter 1),
          RATE_LIMIT_BASE_DELAY * 2 ^ 2 * (1 + jitter 2),
          RATE_LIMIT_BASE_DELAY * 2 ^ 3 * (1 + jitter 3)],
         Except.error (mkJobError ERR_NETWORK_TRANSIENT
           "Deepgram rate limited (429) after 4 retries" (some true)))
    ∧ ((∀ i, -(1/10) ≤ jitter i ∧ jitter i ≤ 1/10) →
        ∀ d ∈ (transcribe_audio resp jitter).1, ∃ k, k < MAX_RATE_LIMIT_RETRIES
          ∧ d = RATE_LIMIT_BASE_DELAY * 2 ^ k * (1 + jitter k)
          ∧ 9/10 * (RATE_LIMIT_BASE_DELAY * 2 ^ k) ≤ d
          ∧ d ≤ 11/10 * (RATE_LIMIT_BASE_DELAY * 2 ^ k)) := by
  obtain ⟨r0, k0, b0, e0⟩ := h429 0 (by norm_num [MAX_RATE_LIMIT_RETRIES])
  obtain ⟨r1, k1, b1, e1⟩ := h429 1 (by norm_num [MAX_RATE_LIMIT_RETRIES])
  obtain ⟨r2, k2, b2, e2⟩ := h429 2 (by norm_num [MAX_RATE_LIMIT_RETRIES])
  obtain ⟨r3, k3, b3, e3⟩ := h429 3 (by norm_num [MAX_RATE_LIMIT_RETRIES])
  obtain ⟨r4, k4, b4, e4⟩ := h429 4 (by norm_num [MAX_RATE_LIMIT_RETRIES])
  have hmain : transcribe_audio resp jitter
      = ([RATE_LIMIT_BASE_DELAY * 2 ^ 0 * (1 + jitter 0),
          RATE_LIMIT_BASE_DELAY * 2 ^ 1 * (1 + jitter 1),
          RATE_LIMIT_BASE_DELAY * 2 ^ 2 * (1 + jitter 2),
          RATE_LIMIT_BASE_DELAY * 2 ^ 3 * (1 + jitter 3)],
         Except.error (mkJobError ERR_NETWORK_TRANSIENT
           "Deepgram rate limited (429) after 4 retries" (some true))) := by
    norm_num [transcribe_audio, dgAttemptLoop, e0, e1, e2, e3, e4,
      MAX_RATE_LIMIT_RETRIES, rateLimitDelay]
  refine ⟨hmain, ?_⟩
  intro hj d hd
  rw [hmain] at hd
  simp only [List.mem_cons, List.not_mem_nil, or_false] at hd
  have hb : (0 : ℚ) < RATE_LIMIT_BASE_DELAY := by rw [RATE_LIMIT_BASE_DELAY]; norm_num
  rcases hd with h | h | h | h
  · exact ⟨0, by norm_num [MAX_RATE_LIMIT_RETRIES], h, by
      rw [h, RATE_LIMIT_BASE_DELAY]
      have := (hj 0).1
      nlinarith, by
      rw [h, RATE_LIMIT_BASE_DELAY]
      have := (hj 0).2
      nlinarith⟩
  · exact ⟨1, by norm_num [MAX_RATE_LIMIT_RETRIES], h, by
      rw [h, RATE_LIMIT_BASE_DELAY]
      have := (hj 1).1
      nlinarith, by
      rw [h, RATE_LIMIT_BASE_DELAY]
      have := (hj 1).2
      nlinarith⟩
  · exact ⟨2, by norm_num [MAX_RATE_LIMIT_RETRIES], h, by
      rw [h, RATE_LIMIT_BASE_DELAY]
      have := (hj 2).1
      nlinarith, by
      rw [h, RATE_LIMIT_BASE_DELAY]
      have := (hj 2).2
      nlinarith⟩
  · exact ⟨3, by norm_num [MAX_RATE_LIMIT_RETRIES], h, by
      rw [h, RATE_LIMIT_BASE_DELAY]
      have := (hj 3).1
      nlinarith, by
      rw [h, RATE_LIMIT_BASE_DELAY]
      have := (hj 3).2
      nlinarith⟩

def c8Resp : ℕ → DGAttempt :=
  fun _ => DGAttempt.http 429 "" true (DGResponse.mk [] "")

def c8Jitter : ℕ → ℚ :=
  fun _ => 1/20

/-- C8 (witness): the backoff theorem applied to an oracle that always
answers 429, with a constant +5% jitter draw. -/
theorem c8_rate_limit_backoff_witness :
    (∀ i, i < MAX_RATE_LIMIT_RETRIES + 1 →
      ∃ raw ok body, c8Resp i = DGAttempt.http 429 raw ok body) ∧
    (transcribe_audio c8Resp c8Jitter
      = ([RATE_LIMIT_BASE_DELAY * 2 ^ 0 * (1 + c8Jitter 0),
          RATE_LIMIT_BASE_DELAY * 2 ^ 1 * (1 + c8Jitter 1),
          RATE_LIMIT_BASE_DELAY * 2 ^ 2 * (1 + c8Jitter 2),
          RATE_LIMIT_BASE_DELAY * 2 ^ 3 * (1 + c8Jitter 3)],
         Except.error (mkJobError ERR_NETWORK_TRANSIENT
           "Deepgram rate limited (429) after 4 retries" (some true)))
    ∧ ((∀ i, -(1/10) ≤ c8Jitter i ∧ c8Jitter i ≤ 1/10) →
        ∀ d ∈ (transcribe_audio c8Resp c8Jitter).1, ∃ k, k < MAX_RATE_LIMIT_RETRIES
          ∧ d = RATE_LIMIT_BASE_DELAY * 2 ^ k * (1 + c8Jitter k)
          ∧ 9/10 * (RATE_LIMIT_BASE_DELAY * 2 ^ k) ≤ d
          ∧ d ≤ 11/10 * (RATE_LIMIT_BASE_DELAY * 2 ^ k))) :=
  ⟨fun _ _ => ⟨"", true, DGResponse.mk [] "", rfl⟩,
    c8_rate_limit_backoff c8Resp c8Jitter
      (fun _ _ => ⟨"", true, DGResponse.mk [] "", rfl⟩)⟩

/-! ### Claim C7: adaptive timeout handling -/

/-- The body of the `for part_idx, (s, e) in enumerate([...])` loop of
`_transcribe_with_adaptive_retry` followed by the merge: recursively
transcribe the two halves (each materialised as its own audio artifact —
the ffmpeg extraction is I/O and assumed to produce the part file), abort on
a failing half, and wrap the merged text of the two extracted transcripts in
a synthetic response whose only content is the flat transcript. -/
def combineHalves (r1 r2 : Option (Except JobErr DGResponse)) :
    Option (Except JobErr DGResponse) :=
  match r1 with
  | none => none
  | some (Except.error e1) => some (Except.error e1)
  | some (Except.ok a) =>
    match r2 with
    | none => none
    | some (Except.error e2) => some (Except.error e2)
    | some (Except.ok b) =>
      some (Except.ok (DGResponse.mk []
        (merge_transcripts [extract_transcript_text a, extract_transcript_text b])))

/-- `JobQueueManager._transcribe_with_adaptive_retry` over the transcription
oracle `oracle start end attempt` (the network call on the audio artifact
covering `[start, end]`; `attempt` distinguishes the retry of the same call
made for non-timeout retryable errors).  Timeout-classified failures below
the `MIN_CHUNK_SEC` floor are terminal for the controller; above it the
segment is split at the midpoint with the second half starting
`2 = CHUNK_OVERLAP_SEC` seconds earlier (the source writes the literal `2`),
and the recursion is depth-bounded by the explicit fuel (the wall-clock
formatting inside the terminal error message is omitted). -/
def adaptiveRetry (oracle : ℚ → ℚ → ℕ → Except JobErr DGResponse) :
    ℕ → ℚ → ℚ → Option (Except JobErr DGResponse)
  | 0, _, _ => none
  | fuel + 1, start_sec, end_sec =>
    match oracle start_sec end_sec 0 with
    | Except.ok r => some (Except.ok r)
    | Except.error e =>
      if e.code ≠ ERR_DEEPGRAM_TIMEOUT then
        if e.retryable then some (oracle start_sec end_sec 1)
        else some (Except.error e)
      else
        if end_sec - start_sec ≤ MIN_CHUNK_SEC then
          some (Except.error (mkJobError ERR_DEEPGRAM_TIMEOUT
            "Timeout on minimum chunk size" none))
        else
          combineHalves
            (adaptiveRetry oracle fuel start_sec
              (start_sec + (end_sec - start_sec) / 2))
            (adaptiveRetry oracle fuel
              (start_sec + (end_sec - start_sec) / 2 - 2) end_sec)

/-- C7: when the transcription call on a segment fails with a
timeout-classified error, the adaptive controller (a) raises the terminal
"minimum chunk size" timeout error and performs no split if the segment
duration is at or below the 300 s floor, and (b) otherwise recursively
transcribes the two halves — the first ending at the midpoint, the second
starting at the midpoint minus the overlap constant — and returns the merge
of the two resulting texts (via `combineHalves`). -/
theorem c7_adaptive_timeout_split (oracle : ℚ → ℚ → ℕ → Except JobErr DGResponse)
    (fuel : ℕ) (s t : ℚ) (err : JobErr)
    (hcall : oracle s t 0 = Except.error err)
    (hcode : err.code = ERR_DEEPGRAM_TIMEOUT) :
    (t - s ≤ MIN_CHUNK_SEC →
      adaptiveRetry oracle (fuel + 1) s t
        = some (Except.error (mkJobError ERR_DEEPGRAM_TIMEOUT
            "Timeout on minimum chunk size" none)))
    ∧ (MIN_CHUNK_SEC < t - s →
      adaptiveRetry oracle (fuel + 1) s t
        = combineHalves
            (adaptiveRetry oracle fuel s ((s + t) / 2))
            (adaptiveRetry oracle fuel ((s + t) / 2 - CHUNK_OVERLAP_SEC) t)) := by
  have hnotne : ¬ (err.code ≠ ERR_DEEPGRAM_TIMEOUT) := by
    rw [hcode]
    exact fun h => h rfl
  have hstep : adaptiveRetry oracle (fuel + 1) s t
      = if t - s ≤ MIN_CHUNK_SEC then
          some (Except.error (mkJobError ERR_DEEPGRAM_TIMEOUT
            "Timeout on minimum chunk size" none))
        else
          combineHalves
            (adaptiveRetry oracle fuel s (s + (t - s) / 2))
            (adaptiveRetry oracle fuel (s + (t - s) / 2 - 2) t) := by
    simp only [adaptiveRetry, hcall]
    rw [if_neg hnotne]
  constructor
  · intro hle
    rw [hstep, if_pos hle]
  · intro hgt
    rw [hstep, if_neg (not_le.mpr hgt)]
    have hmid : s + (t - s) / 2 = (s + t) / 2 := by ring
    have hov : s + (t - s) / 2 - 2 = (s + t) / 2 - CHUNK_OVERLAP_SEC := by
      rw [CHUNK_OVERLAP_SEC]
      ring
    rw [hov, hmid]

def c7Oracle : ℚ → ℚ → ℕ → Except JobErr DGResponse :=
  fun _ _ _ => Except.error (mkJobError ERR_DEEPGRAM_TIMEOUT
    "Deepgram request timed out" (some true))

/-- C7 (witness): a 200 s segment (at most the 300 s floor) that times out
yields the terminal minimum-chunk timeout error, with no split. -/
theorem c7_adaptive_timeout_split_witness :
    c7Oracle 0 200 0 = Except.error (mkJobError ERR_DEEPGRAM_TIMEOUT
      "Deepgram request timed out" (some true)) ∧
    (mkJobError ERR_DEEPGRAM_TIMEOUT "Deepgram request timed out" (some true)).code
      = ERR_DEEPGRAM_TIMEOUT ∧
    (200 : ℚ) - 0 ≤ MIN_CHUNK_SEC ∧
    adaptiveRetry c7Oracle 1 0 200
      = some (Except.error (mkJobError ERR_DEEPGRAM_TIMEOUT
          "Timeout on minimum chunk size" none)) :=
  ⟨rfl, rfl, by rw [MIN_CHUNK_SEC]; norm_num,
    (c7_adaptive_timeout_split c7Oracle 0 0 200
      (mkJobError ERR_DEEPGRAM_TIMEOUT "Deepgram request timed out" (some true))
      rfl rfl).1 (by rw [MIN_CHUNK_SEC]; norm_num)⟩
